import Mathlib

/-!
# Verification of the page controller in `static/js/app.js`

A shallow embedding of the client-side controller of the fitness-coaching
page.  Each definition translates one function (or one cohesive fragment)
of `static/js/app.js`; the theorems at the end of the file settle the
frozen claims about that code.

Modelling conventions:
* JavaScript numbers produced by `parseInt(_, 10)` are modelled as
  `Option Int`: `none` stands for `NaN`, `some k` for the exact integer
  `k` (all values occurring here are far below `2^53`, where doubles are
  exact, so `Int` is faithful).
* DOM attribute reads (`input.min`, `input.value`, ...) yield strings,
  with the empty string standing for an absent attribute, exactly as the
  DOM reflects a missing content attribute.  `data-*` reads yield
  `Option String` (`none` = `undefined` for an absent `data-` attribute).
* `classList` membership of a single marker class is modelled as a
  `Bool` field.
-/

/-! ## JavaScript string/number primitives -/

/-- Value of a list of decimal digit characters, most significant first,
accumulated onto `acc` (the usual base-10 left fold). -/
def digitsVal (acc : Nat) : List Char → Nat
  | [] => acc
  | c :: cs => digitsVal (acc * 10 + (c.toNat - 48)) cs

/-- The maximal leading run of decimal digits of `l`, converted to a
natural number; `none` when `l` does not start with a digit.  This is the
digit-consuming core of JavaScript `parseInt(s, 10)`. -/
def parseNatPart (l : List Char) : Option Nat :=
  let ds := l.takeWhile Char.isDigit
  if ds = [] then none else some (digitsVal 0 ds)

/-- Sign handling of JavaScript `parseInt(s, 10)` after whitespace
stripping: an optional `-` or `+`, then the maximal run of decimal
digits; `none` models the `NaN` result when no digit follows. -/
def parseSigned : List Char → Option Int
  | [] => none
  | c :: rest =>
    if c = '-' then (parseNatPart rest).map (fun m => -(Int.ofNat m))
    else if c = '+' then (parseNatPart rest).map Int.ofNat
    else (parseNatPart (c :: rest)).map Int.ofNat

/-- JavaScript `parseInt(s, 10)`: skip leading whitespace, then read a
signed run of decimal digits. -/
def parseIntTen (s : String) : Option Int :=
  parseSigned (s.data.dropWhile Char.isWhitespace)

/-- Decimal digits of `n`, most significant first; `fuel` bounds the
recursion depth (any `fuel > n` is enough, division by ten strictly
decreases a positive argument). -/
def natDigitsAux : Nat → Nat → List Char
  | 0, _ => []
  | fuel + 1, n =>
    if n < 10 then [Nat.digitChar n]
    else natDigitsAux fuel (n / 10) ++ [Nat.digitChar (n % 10)]

/-- Decimal digit string of a natural number, most significant first. -/
def natDigits (n : Nat) : List Char := natDigitsAux (n + 1) n

/-- JavaScript `String(k)` for an integer `k` (decimal notation, `-`
prefix for negative values). -/
def intToString (k : Int) : String :=
  if k < 0 then ⟨'-' :: natDigits (-k).toNat⟩ else ⟨natDigits k.toNat⟩

/-- JavaScript `String(v)` on a `parseInt` result: `NaN` prints as the
string `"NaN"`. -/
def jsNumToString : Option Int → String
  | none => "NaN"
  | some k => intToString k

/-- JavaScript `s.trim()`: strip whitespace from both ends. -/
def jsTrim (s : String) : String :=
  ⟨((s.data.dropWhile Char.isWhitespace).reverse.dropWhile Char.isWhitespace).reverse⟩

/-- NaN-propagating addition on JavaScript numbers. -/
def nanAdd : Option Int → Option Int → Option Int
  | some a, some b => some (a + b)
  | _, _ => none

/-- NaN-propagating multiplication on JavaScript numbers. -/
def nanMul : Option Int → Option Int → Option Int
  | some a, some b => some (a * b)
  | _, _ => none

/-- JavaScript `<` on numbers: any comparison with NaN is false. -/
def nanLt : Option Int → Option Int → Bool
  | some a, some b => a < b
  | _, _ => false

/-- JavaScript `>` on numbers: any comparison with NaN is false. -/
def nanGt : Option Int → Option Int → Bool
  | some a, some b => a > b
  | _, _ => false

/-- The subset of JavaScript values that can reach the `defaultVal`
parameter of `setChipGroupSingle`. -/
inductive JSVal where
  | nullV : JSVal
  | str : String → JSVal
  | num : Int → JSVal
deriving Repr, DecidableEq

/-- JavaScript truthiness of such a value (`null`, `""` and `0` are
falsy). -/
def JSVal.truthy : JSVal → Bool
  | .nullV => false
  | .str s => s ≠ ""
  | .num n => n ≠ 0

/-- JavaScript `String(v)` conversion of such a value. -/
def JSVal.toStr : JSVal → String
  | .nullV => "null"
  | .str s => s
  | .num n => intToString n

/-! ## Chip groups (`setChipGroupSingle`) -/

/-- One option chip: its `data-value` attribute and whether its
`classList` currently contains the `active` marker. -/
structure Chip where
  value : String
  active : Bool
deriving Repr, DecidableEq

/-- Translation of `chips.forEach((c) => c.classList.remove('active'))`. -/
def clearActive (g : List Chip) : List Chip :=
  g.map (fun c => { c with active := false })

/-- Translation of `classList.add('active')` on the chip at position `k` (no effect when
`k` is out of range; a click always targets an existing chip). -/
def setActiveAt : List Chip → Nat → List Chip
  | [], _ => []
  | c :: cs, 0 => { c with active := true } :: cs
  | c :: cs, k + 1 => c :: setActiveAt cs k

/-- The click handler `setChipGroupSingle` registers on each chip: remove
`active` from every chip of the group, then add it to the clicked one. -/
def clickChip (g : List Chip) (k : Nat) : List Chip :=
  setActiveAt (clearActive g) k

/-- Translation of `chips.find((c) => c.dataset.value == String(defaultVal))` followed by
`classList.add('active')` on the first match, if any. -/
def activateFirstMatch : List Chip → String → List Chip
  | [], _ => []
  | c :: cs, s =>
    if c.value = s then { c with active := true } :: cs
    else c :: activateFirstMatch cs s

/-- Modelled from the spec: the chip-group containers of the page markup
(the HTML page itself is not among the source files) deliver their chips
with a value attribute each and no `active` marker — per the spec's
ChipGroup lifecycle, a chip becomes active only through the optional
configuration default or a user click. -/
def freshChips (values : List String) : List Chip :=
  values.map (fun v => { value := v, active := false })

/-- Translation of `setChipGroupSingle(containerId, defaultVal)` at
configuration time, applied to the group's markup-delivered chips.  When
`defaultVal` is truthy, the first chip whose value equals
`String(defaultVal)` is pre-activated. -/
def setChipGroupSingle (values : List String) (defaultVal : JSVal) : List Chip :=
  let chips := freshChips values
  if defaultVal.truthy then activateFirstMatch chips defaultVal.toStr else chips

/-- A sequence of user clicks on the group, each given by the index of
the clicked chip. -/
def runClicks (g : List Chip) : List Nat → List Chip
  | [] => g
  | k :: ks => runClicks (clickChip g k) ks

/-- Number of chips of the group bearing the `active` marker. -/
def countActive (g : List Chip) : Nat :=
  (g.filter (fun c => c.active)).length

/-! ## Steppers (`setupSteppers`) -/

/-- The attribute state of the numeric input bound to a stepper button:
the raw strings of its `value`, `min`, `max` and `step` attributes (the
empty string reflects an absent attribute). -/
structure InputState where
  value : String
  min : String
  max : String
  step : String
deriving Repr, DecidableEq

/-- Translation of `attr || defaultString` on a DOM string attribute: the default kicks
in exactly when the attribute string is empty (falsy). -/
def attrOr (s d : String) : String := if s = "" then d else s

/-- Translation of `btn.dataset.step || '0'`: an absent `data-` attribute reads as
`undefined` (falsy), an empty one as `""` (falsy). -/
def dataOr (o : Option String) (d : String) : String :=
  match o with
  | none => d
  | some s => if s = "" then d else s

/-- The click handler `setupSteppers` installs on a stepper button:
parse the button's `data-step` multiplier and the input's `min`, `max`,
`step` and `value` (with `|| fallback` defaults), compute
`value + delta * step`, clamp below `min` and above `max`, and write the
result back as the input's displayed value. -/
def stepperClick (btnStep : Option String) (i : InputState) : InputState :=
  let delta := parseIntTen (dataOr btnStep "0")
  let mn := parseIntTen (attrOr i.min "-9999")
  let mx := parseIntTen (attrOr i.max "9999")
  let st := parseIntTen (attrOr i.step "1")
  let v1 := nanAdd (parseIntTen (attrOr i.value "0")) (nanMul delta st)
  let v2 := if nanLt v1 mn then mn else v1
  let v3 := if nanGt v2 mx then mx else v2
  { i with value := jsNumToString v3 }

/-- A sequence of stepper-button clicks on the same input, each given by
the clicked button's `data-step` attribute. -/
def clickSeq (i : InputState) : List (Option String) → InputState
  | [] => i
  | b :: bs => clickSeq (stepperClick b i) bs

/-- The clamp the handler applies, on actual integers:
`if (val < min) val = min; if (val > max) val = max;`. -/
def jsClamp (v mn mx : Int) : Int :=
  if (if v < mn then mn else v) > mx then mx else if v < mn then mn else v

/-! ## View router (`showOnboarding` / `showChat`) -/

/-- Whether each of the two view sections carries the `hidden` class. -/
structure ViewState where
  onboardingHidden : Bool
  chatHidden : Bool
deriving Repr, DecidableEq

/-- The two router entry points. -/
inductive ViewCall where
  | onboarding : ViewCall
  | chat : ViewCall
deriving Repr, DecidableEq

/-- Translation of `showOnboarding()` unhiding `#onboarding` and hiding `#chat`;
`showChat()` does the inverse. -/
def applyCall (_s : ViewState) : ViewCall → ViewState
  | .onboarding => { onboardingHidden := false, chatHidden := true }
  | .chat => { onboardingHidden := true, chatHidden := false }

/-- A sequence of router calls, applied left to right. -/
def runCalls (s : ViewState) : List ViewCall → ViewState
  | [] => s
  | c :: cs => runCalls (applyCall s c) cs

/-! ## Transcript renderer (`addMessage`) -/

/-- The DOM node `addMessage` builds: wrapper class `message <role>`, an
avatar label, and the bubble's `textContent` (inert text, never parsed as
markup). -/
structure MessageNode where
  className : String
  avatarText : String
  bubbleText : String
deriving Repr, DecidableEq

/-- The node built for one `addMessage(role, text)` call: label `GB` for
role `assistant`, `You` for any other role, and the literal text. -/
def mkMessage (role text : String) : MessageNode :=
  { className := "message " ++ role
  , avatarText := if role = "assistant" then "GB" else "You"
  , bubbleText := text }

/-- The `#messages` container: its child message nodes, its fixed
viewport height, and its current scroll offset. -/
structure Container where
  msgs : List MessageNode
  clientHeight : Nat
  scrollTop : Nat
deriving Repr, DecidableEq

/-- Translation of `addMessage(role, text)` against a content-height function `H`
(`scrollHeight` of a message list): append the node, then execute
`list.scrollTop = list.scrollHeight`, which the browser clamps to the
maximum scroll offset `scrollHeight - clientHeight`. -/
def addMessage (H : List MessageNode → Nat) (role text : String) (c : Container) : Container :=
  let msgs' := c.msgs ++ [mkMessage role text]
  { c with msgs := msgs', scrollTop := min (H msgs') (H msgs' - c.clientHeight) }

/-! ## Application state and the three flows of `initialize` -/

/-- The page state the controller mutates: the two view sections and the
transcript node list (the transcript is read here as the list of message
nodes; scrolling is covered by `addMessage` above). -/
structure AppState where
  view : ViewState
  transcript : List MessageNode
deriving Repr, DecidableEq

/-- The parsed JSON body of `GET /api/profile`: `ok`, truthiness of the
`profile` field, and the `profile_summary` string. -/
structure ProfileResp where
  ok : Bool
  profilePresent : Bool
  profile_summary : String
deriving Repr, DecidableEq

/-- The profile phase of `initialize()`: on `p.ok && p.profile`, call
`showChat()` and append the assistant welcome message interpolating the
summary; otherwise call `showOnboarding()`. -/
def initProfile (p : ProfileResp) (st : AppState) : AppState :=
  if p.ok && p.profilePresent then
    { view := applyCall st.view .chat
    , transcript :=
        st.transcript ++ [mkMessage "assistant" ("Welcome back. Profile: " ++ p.profile_summary)] }
  else
    { st with view := applyCall st.view .onboarding }

/-- The parsed JSON body of `POST /api/onboarding`: `ok`, the optional
`error` string (`none` = field absent), and the `profile_summary`. -/
structure OnbResp where
  ok : Bool
  error : Option String
  profile_summary : String
deriving Repr, DecidableEq

/-- The tail of the `#startBtn` click handler, from the response on: on
`!res.ok`, `alert(res.error || 'Please complete the required fields.')`
and return; on success, `showChat()` and append the assistant message
interpolating the summary.  The second component is the alert text, if
one was raised. -/
def startFlow (res : OnbResp) (st : AppState) : AppState × Option String :=
  if !res.ok then
    (st, some (match res.error with
      | some e => if e = "" then "Please complete the required fields." else e
      | none => "Please complete the required fields."))
  else
    ({ view := applyCall st.view .chat
     , transcript :=
         st.transcript ++ [mkMessage "assistant" ("Your profile: " ++ res.profile_summary)] }
    , none)

/-- The parsed JSON body of `POST /api/chat`. -/
structure ChatResp where
  ok : Bool
  reply : String
  error : Option String
deriving Repr, DecidableEq

/-- How one chat request resolves: a parsed server response, or a
network-level failure (rejected fetch, caught by the `catch` arm). -/
inductive ChatOutcome where
  | resp : ChatResp → ChatOutcome
  | netError : ChatOutcome
deriving Repr, DecidableEq

/-- The assistant text the `send` handler appends for one outcome:
`res.reply` on `ok`, `res.error || 'Error generating reply.'` on a server
failure, the fixed `'Network error.'` on a network failure. -/
def replyText : ChatOutcome → String
  | .resp r =>
    if r.ok then r.reply
    else match r.error with
      | some e => if e = "" then "Error generating reply." else e
      | none => "Error generating reply."
  | .netError => "Network error."

/-- The chat-flow state: the `#chatInput` value, the `#sendBtn` disabled
flag, the number of chat requests currently in flight, the transcript,
and the list of issued request payloads (each the `message` string of one
`POST /api/chat`). -/
structure SendState where
  inputValue : String
  sendDisabled : Bool
  inFlight : Nat
  transcript : List MessageNode
  requests : List String
deriving Repr, DecidableEq

/-- The synchronous first half of `send()`, up to and including the
`apiChat` call: trim the input; if empty, return with nothing changed;
otherwise clear the input, append the user message, disable the send
button and issue the request. -/
def sendStart (st : SendState) : SendState :=
  let text := jsTrim st.inputValue
  if text = "" then st
  else
    { inputValue := ""
    , sendDisabled := true
    , inFlight := st.inFlight + 1
    , transcript := st.transcript ++ [mkMessage "user" text]
    , requests := st.requests ++ [text] }

/-- The resumption of `send()` when its request resolves: append the
assistant message for the outcome, and re-enable the send button in the
`finally` arm. -/
def finishRequest (o : ChatOutcome) (st : SendState) : SendState :=
  { st with
    inFlight := st.inFlight - 1
  , sendDisabled := false
  , transcript := st.transcript ++ [mkMessage "assistant" (replyText o)] }

/-- The user and network events that drive the chat flow. -/
inductive UiEvent where
  | setInput : String → UiEvent
  | clickSend : UiEvent
  | pressEnter : UiEvent
  | complete : ChatOutcome → UiEvent
deriving Repr, DecidableEq

/-- One event-loop step.  Editing replaces the input value.  A click on
`#sendBtn` runs `send()` unless the button is disabled (a disabled button
fires no click events).  The Enter-key handler calls `send()`
unconditionally — it never consults the disabled flag.  A request
completion resumes the corresponding suspended `send()`. -/
def stepEvent (st : SendState) : UiEvent → SendState
  | .setInput s => { st with inputValue := s }
  | .clickSend => if st.sendDisabled then st else sendStart st
  | .pressEnter => sendStart st
  | .complete o => if st.inFlight = 0 then st else finishRequest o st

/-- A sequence of event-loop steps, applied left to right. -/
def runEvents (st : SendState) : List UiEvent → SendState
  | [] => st
  | e :: es => runEvents (stepEvent st e) es

/-! ## Lemmas: decimal printing and parsing -/

theorem digitChar_isDigit {d : Nat} (h : d < 10) : (Nat.digitChar d).isDigit = true := by
  interval_cases d <;> decide

theorem digitChar_not_ws {d : Nat} (h : d < 10) : (Nat.digitChar d).isWhitespace = false := by
  interval_cases d <;> decide

theorem digitChar_toNat {d : Nat} (h : d < 10) : (Nat.digitChar d).toNat = 48 + d := by
  interval_cases d <;> decide

theorem digitChar_ne_dash {d : Nat} (h : d < 10) : Nat.digitChar d ≠ '-' := by
  interval_cases d <;> decide

theorem digitChar_ne_plus {d : Nat} (h : d < 10) : Nat.digitChar d ≠ '+' := by
  interval_cases d <;> decide

theorem digitChar_spec {d : Nat} (h : d < 10) :
    (Nat.digitChar d).isDigit = true ∧ (Nat.digitChar d).isWhitespace = false
      ∧ Nat.digitChar d ≠ '-' ∧ Nat.digitChar d ≠ '+' :=
  ⟨digitChar_isDigit h, digitChar_not_ws h, digitChar_ne_dash h, digitChar_ne_plus h⟩

theorem natDigitsAux_ne_nil {fuel n : Nat} (h : n < fuel) : natDigitsAux fuel n ≠ [] := by
  match fuel with
  | f + 1 =>
    rw [natDigitsAux]
    split
    · simp
    · simp

theorem natDigitsAux_mem {fuel : Nat} :
    ∀ {n : Nat}, n < fuel → ∀ c ∈ natDigitsAux fuel n,
      c.isDigit = true ∧ c.isWhitespace = false ∧ c ≠ '-' ∧ c ≠ '+' := by
  induction fuel with
  | zero => intro n h; omega
  | succ f ih =>
    intro n _ c hc
    rw [natDigitsAux] at hc
    split at hc
    · simp only [List.mem_singleton] at hc
      subst hc
      exact digitChar_spec (by omega)
    · rcases List.mem_append.mp hc with h1 | h2
      · exact ih (by omega) c h1
      · simp only [List.mem_singleton] at h2
        subst h2
        exact digitChar_spec (Nat.mod_lt _ (by omega))

theorem digitsVal_nil (acc : Nat) : digitsVal acc [] = acc := rfl

theorem digitsVal_cons (acc : Nat) (c : Char) (cs : List Char) :
    digitsVal acc (c :: cs) = digitsVal (acc * 10 + (c.toNat - 48)) cs := rfl

theorem digitsVal_append (xs ys : List Char) (acc : Nat) :
    digitsVal acc (xs ++ ys) = digitsVal (digitsVal acc xs) ys := by
  induction xs generalizing acc with
  | nil => rfl
  | cons c cs ih =>
    rw [List.cons_append, digitsVal_cons, digitsVal_cons]
    exact ih _

theorem digitsVal_natDigitsAux {fuel : Nat} :
    ∀ {n : Nat}, n < fuel → ∀ acc : Nat,
      digitsVal acc (natDigitsAux fuel n) = acc * 10 ^ (natDigitsAux fuel n).length + n := by
  induction fuel with
  | zero => intro n h; omega
  | succ f ih =>
    intro n hn acc
    rw [natDigitsAux]
    split
    · rename_i h10
      rw [digitsVal_cons, digitsVal_nil, digitChar_toNat h10, List.length_singleton, pow_one]
      omega
    · rename_i h10
      have hrec : n / 10 < f := by
        have : n / 10 < n := Nat.div_lt_self (by omega) (by omega)
        omega
      rw [digitsVal_append, ih hrec acc, digitsVal_cons, digitsVal_nil,
        digitChar_toNat (Nat.mod_lt _ (by omega)), List.length_append, List.length_singleton,
        pow_succ, ← mul_assoc]
      generalize acc * 10 ^ (natDigitsAux f (n / 10)).length = Q
      omega

theorem digitsVal_natDigits (n : Nat) : digitsVal 0 (natDigits n) = n := by
  have := digitsVal_natDigitsAux (Nat.lt_succ_self n) 0
  simpa [natDigits] using this

theorem natDigits_ne_nil (n : Nat) : natDigits n ≠ [] :=
  natDigitsAux_ne_nil (Nat.lt_succ_self n)

theorem natDigits_mem (n : Nat) : ∀ c ∈ natDigits n,
    c.isDigit = true ∧ c.isWhitespace = false ∧ c ≠ '-' ∧ c ≠ '+' :=
  natDigitsAux_mem (Nat.lt_succ_self n)

theorem parseSigned_cons (c : Char) (rest : List Char) :
    parseSigned (c :: rest) =
      (if c = '-' then (parseNatPart rest).map (fun m => -(Int.ofNat m))
       else if c = '+' then (parseNatPart rest).map Int.ofNat
       else (parseNatPart (c :: rest)).map Int.ofNat) := rfl

theorem parseNatPart_digits (l : List Char) (hne : l ≠ [])
    (hd : ∀ c ∈ l, c.isDigit = true) :
    parseNatPart l = some (digitsVal 0 l) := by
  unfold parseNatPart
  rw [List.takeWhile_eq_self_iff.mpr hd, if_neg hne]

theorem mk_data (l : List Char) : (⟨l⟩ : String).data = l := rfl

theorem dropWhile_ws_of_head (c : Char) (cs : List Char) (h : c.isWhitespace = false) :
    (c :: cs).dropWhile Char.isWhitespace = c :: cs := by
  rw [List.dropWhile_cons, if_neg (by simp [h])]

theorem parseIntTen_digits (l : List Char) (hne : l ≠ [])
    (hd : ∀ c ∈ l, c.isDigit = true ∧ c.isWhitespace = false ∧ c ≠ '-' ∧ c ≠ '+') :
    parseIntTen ⟨l⟩ = some (Int.ofNat (digitsVal 0 l)) := by
  cases l with
  | nil => exact absurd rfl hne
  | cons c cs =>
    obtain ⟨h1, h2, h3, h4⟩ := hd c (List.mem_cons_self c cs)
    unfold parseIntTen
    rw [mk_data, dropWhile_ws_of_head c cs h2]
    rw [parseSigned_cons, if_neg h3, if_neg h4,
      parseNatPart_digits (c :: cs) (by simp) (fun x hx => (hd x hx).1)]
    rfl

/-- Roundtrip fact: `parseInt(String(k), 10)` recovers `k`: the displayed value written
back by a stepper click parses to the number that produced it. -/
theorem parseIntTen_intToString (k : Int) : parseIntTen (intToString k) = some k := by
  unfold intToString
  split
  · rename_i hk
    unfold parseIntTen
    rw [mk_data, dropWhile_ws_of_head _ _ (by decide)]
    rw [parseSigned_cons, if_pos rfl, parseNatPart_digits _ (natDigits_ne_nil _)
      (fun x hx => (natDigits_mem _ x hx).1)]
    simp only [Option.map_some', digitsVal_natDigits]
    simp only [Option.some.injEq, Int.ofNat_eq_natCast]
    omega
  · rename_i hk
    rw [parseIntTen_digits _ (natDigits_ne_nil _) (natDigits_mem _), digitsVal_natDigits]
    simp only [Option.some.injEq, Int.ofNat_eq_natCast]
    omega

theorem intToString_ne_empty (k : Int) : intToString k ≠ "" := by
  unfold intToString
  split
  · intro h
    have := congrArg String.data h
    simp [mk_data] at this
  · intro h
    have := congrArg String.data h
    rw [mk_data] at this
    exact natDigits_ne_nil _ (by simpa using this)

/-! ## Lemmas: the stepper handler -/

theorem stepperClick_min (b : Option String) (i : InputState) :
    (stepperClick b i).min = i.min := rfl

theorem stepperClick_max (b : Option String) (i : InputState) :
    (stepperClick b i).max = i.max := rfl

theorem stepperClick_step (b : Option String) (i : InputState) :
    (stepperClick b i).step = i.step := rfl

theorem clickSeq_cons (i : InputState) (b : Option String) (bs : List (Option String)) :
    clickSeq i (b :: bs) = clickSeq (stepperClick b i) bs := rfl

/-- When the multiplier and all four input attributes parse, a stepper
click writes back exactly the clamped value `value + delta * step`. -/
theorem stepperClick_value (b : Option String) (i : InputState) (d v mn mx st : Int)
    (hd : parseIntTen (dataOr b "0") = some d)
    (hv : parseIntTen (attrOr i.value "0") = some v)
    (hmn : parseIntTen (attrOr i.min "-9999") = some mn)
    (hmx : parseIntTen (attrOr i.max "9999") = some mx)
    (hst : parseIntTen (attrOr i.step "1") = some st) :
    stepperClick b i = { i with value := intToString (jsClamp (v + d * st) mn mx) } := by
  unfold stepperClick
  rw [hd, hv, hmn, hmx, hst]
  simp only [nanAdd, nanMul, nanLt, nanGt, jsNumToString, jsClamp]
  split_ifs <;> simp_all

theorem jsClamp_bounds (v mn mx : Int) (h : mn ≤ mx) :
    mn ≤ jsClamp v mn mx ∧ jsClamp v mn mx ≤ mx := by
  unfold jsClamp
  split_ifs <;> omega

theorem nanMul_none_right (a : Option Int) : nanMul a none = none := by
  cases a <;> rfl

theorem nanAdd_none_right (a : Option Int) : nanAdd a none = none := by
  cases a <;> rfl

theorem nanLt_none_left (b : Option Int) : nanLt none b = false := by
  cases b <;> rfl

theorem nanGt_none_left (b : Option Int) : nanGt none b = false := by
  cases b <;> rfl

theorem nanLt_some_none (a : Int) : nanLt (some a) none = false := rfl

theorem nanGt_some_none (a : Int) : nanGt (some a) none = false := rfl

/-- Main invariant of a click sequence: when the bound input's `min`,
`max` and `step` attributes and the starting value parse, `min ≤ max`,
and every clicked button's multiplier parses, then after every click the
displayed value is the decimal print of an integer in `[min, max]`. -/
theorem clickSeq_spec (mn mx st : Int) :
    ∀ (bs : List (Option String)) (i : InputState) (v : Int),
      parseIntTen (attrOr i.min "-9999") = some mn →
      parseIntTen (attrOr i.max "9999") = some mx →
      parseIntTen (attrOr i.step "1") = some st →
      parseIntTen (attrOr i.value "0") = some v →
      mn ≤ mx →
      (∀ b ∈ bs, (parseIntTen (dataOr b "0")).isSome) →
      ∃ w : Int, parseIntTen (attrOr (clickSeq i bs).value "0") = some w ∧
        (bs ≠ [] → (clickSeq i bs).value = intToString w ∧ mn ≤ w ∧ w ≤ mx) := by
  intro bs
  induction bs with
  | nil =>
    intro i v hmn hmx hst hv _ _
    exact ⟨v, hv, by simp⟩
  | cons b rest ih =>
    intro i v hmn hmx hst hv hle hbs
    obtain ⟨d, hd⟩ := Option.isSome_iff_exists.mp (hbs b (List.mem_cons_self _ _))
    have hstep := stepperClick_value b i d v mn mx st hd hv hmn hmx hst
    have hval : (stepperClick b i).value = intToString (jsClamp (v + d * st) mn mx) := by
      rw [hstep]
    have hattr : attrOr (stepperClick b i).value "0" = (stepperClick b i).value := by
      rw [hval]
      unfold attrOr
      rw [if_neg (intToString_ne_empty _)]
    have hparse : parseIntTen (attrOr (stepperClick b i).value "0")
        = some (jsClamp (v + d * st) mn mx) := by
      rw [hattr, hval, parseIntTen_intToString]
    have hmn' : parseIntTen (attrOr (stepperClick b i).min "-9999") = some mn := by
      rw [stepperClick_min]; exact hmn
    have hmx' : parseIntTen (attrOr (stepperClick b i).max "9999") = some mx := by
      rw [stepperClick_max]; exact hmx
    have hst' : parseIntTen (attrOr (stepperClick b i).step "1") = some st := by
      rw [stepperClick_step]; exact hst
    obtain ⟨w, hw, himp⟩ := ih (stepperClick b i) (jsClamp (v + d * st) mn mx)
      hmn' hmx' hst' hparse hle (fun x hx => hbs x (List.mem_cons_of_mem _ hx))
    refine ⟨w, by rw [clickSeq_cons]; exact hw, fun _ => ?_⟩
    cases rest with
    | nil =>
      have h0 : parseIntTen (attrOr (stepperClick b i).value "0") = some w := hw
      have hww : w = jsClamp (v + d * st) mn mx := Option.some.inj (h0.symm.trans hparse)
      refine ⟨?_, hww ▸ (jsClamp_bounds _ _ _ hle).1, hww ▸ (jsClamp_bounds _ _ _ hle).2⟩
      show (stepperClick b i).value = intToString w
      rw [hval, hww]
    | cons b2 rest2 =>
      obtain ⟨h1, h2, h3⟩ := himp (by simp)
      exact ⟨by rw [clickSeq_cons]; exact h1, h2, h3⟩

/-! ## Lemmas: chip groups -/

theorem clearActive_map_value (g : List Chip) :
    (clearActive g).map Chip.value = g.map Chip.value := by
  simp [clearActive, List.map_map]

theorem clearActive_map_active (g : List Chip) :
    (clearActive g).map Chip.active = List.replicate g.length false := by
  simp [clearActive, List.map_map]
  induction g with
  | nil => rfl
  | cons c cs ih => simpa [List.replicate_succ] using ih

theorem clickChip_cons_zero (c : Chip) (cs : List Chip) :
    clickChip (c :: cs) 0 = { c with active := true } :: clearActive cs := rfl

theorem clickChip_cons_succ (c : Chip) (cs : List Chip) (k : Nat) :
    clickChip (c :: cs) (k + 1) = { c with active := false } :: clickChip cs k := rfl

theorem setActiveAt_map_value (l : List Chip) (k : Nat) :
    (setActiveAt l k).map Chip.value = l.map Chip.value := by
  induction l generalizing k with
  | nil => rfl
  | cons c cs ih =>
    cases k with
    | zero => rfl
    | succ k =>
      show Chip.value c :: (setActiveAt cs k).map Chip.value = _
      rw [ih]
      rfl

theorem setActiveAt_map_active (l : List Chip) (k : Nat) :
    (setActiveAt l k).map Chip.active = (l.map Chip.active).set k true := by
  induction l generalizing k with
  | nil => rfl
  | cons c cs ih =>
    cases k with
    | zero => rfl
    | succ k =>
      show Chip.active c :: (setActiveAt cs k).map Chip.active = _
      rw [ih]
      rfl

theorem clickChip_map_value (g : List Chip) (k : Nat) :
    (clickChip g k).map Chip.value = g.map Chip.value := by
  unfold clickChip
  rw [setActiveAt_map_value, clearActive_map_value]

/-- After a click on position `k`, the active markers of the group are
all cleared except position `k`, which is set. -/
theorem clickChip_map_active (g : List Chip) (k : Nat) :
    (clickChip g k).map Chip.active = (List.replicate g.length false).set k true := by
  unfold clickChip
  rw [setActiveAt_map_active, clearActive_map_active]

theorem countActive_nil : countActive [] = 0 := rfl

theorem countActive_cons (c : Chip) (cs : List Chip) :
    countActive (c :: cs) = (if c.active then 1 else 0) + countActive cs := by
  by_cases h : c.active
  · simp [countActive, List.filter_cons, h, Nat.add_comm]
  · simp [countActive, List.filter_cons, h]

theorem countActive_clearActive (g : List Chip) : countActive (clearActive g) = 0 := by
  induction g with
  | nil => rfl
  | cons c cs ih =>
    show countActive ({ c with active := false } :: clearActive cs) = 0
    rw [countActive_cons]
    simpa using ih

theorem countActive_setActiveAt (g : List Chip) (k : Nat) :
    countActive (setActiveAt g k) ≤ countActive g + 1 := by
  induction g generalizing k with
  | nil => simp [setActiveAt, countActive_nil]
  | cons c cs ih =>
    cases k with
    | zero =>
      show countActive ({ c with active := true } :: cs) ≤ _
      rw [countActive_cons, countActive_cons]
      simp only
      split <;> omega
    | succ k =>
      show countActive (c :: setActiveAt cs k) ≤ _
      rw [countActive_cons, countActive_cons]
      have := ih k
      omega

theorem countActive_clickChip (g : List Chip) (k : Nat) :
    countActive (clickChip g k) ≤ 1 := by
  have h1 := countActive_setActiveAt (clearActive g) k
  rw [countActive_clearActive] at h1
  exact h1

theorem countActive_activateFirstMatch (g : List Chip) (s : String) :
    countActive (activateFirstMatch g s) ≤ countActive g + 1 := by
  induction g with
  | nil => simp [activateFirstMatch, countActive_nil]
  | cons c cs ih =>
    unfold activateFirstMatch
    split
    · rw [countActive_cons, countActive_cons]
      simp only
      split <;> omega
    · rw [countActive_cons, countActive_cons]
      omega

theorem countActive_fresh (values : List String) :
    countActive (freshChips values) = 0 := by
  induction values with
  | nil => rfl
  | cons v vs ih =>
    rw [freshChips, List.map_cons, countActive_cons]
    simpa [freshChips] using ih

theorem countActive_config (values : List String) (dv : JSVal) :
    countActive (setChipGroupSingle values dv) ≤ 1 := by
  unfold setChipGroupSingle
  split
  · have := countActive_activateFirstMatch (freshChips values) dv.toStr
    rw [countActive_fresh] at this
    exact this
  · rw [countActive_fresh]
    omega

theorem countActive_runClicks (g : List Chip) (ks : List Nat) (h : countActive g ≤ 1) :
    countActive (runClicks g ks) ≤ 1 := by
  induction ks generalizing g with
  | nil => exact h
  | cons k ks ih => exact ih (clickChip g k) (countActive_clickChip g k)

theorem activateFirstMatch_cons (c : Chip) (cs : List Chip) (s : String) :
    activateFirstMatch (c :: cs) s =
      (if c.value = s then { c with active := true } :: cs
       else c :: activateFirstMatch cs s) := rfl

theorem activateFirstMatch_only (g : List Chip) (s : String)
    (hg : ∀ c ∈ g, c.active = false) :
    ∀ c ∈ activateFirstMatch g s, c.active = true → c.value = s := by
  induction g with
  | nil => intro x hx; simp [activateFirstMatch] at hx
  | cons c cs ih =>
    intro x hx hact
    rw [activateFirstMatch_cons] at hx
    by_cases heq : c.value = s
    · rw [if_pos heq] at hx
      rcases List.mem_cons.mp hx with h1 | h2
      · subst h1; exact heq
      · exact absurd hact (by simp [hg x (List.mem_cons_of_mem _ h2)])
    · rw [if_neg heq] at hx
      rcases List.mem_cons.mp hx with h1 | h2
      · subst h1
        exact absurd hact (by simp [hg x (List.mem_cons_self _ _)])
      · exact ih (fun y hy => hg y (List.mem_cons_of_mem _ hy)) x h2 hact

theorem activateFirstMatch_found (g : List Chip) (s : String)
    (hs : s ∈ g.map Chip.value) :
    ∃ c ∈ activateFirstMatch g s, c.active = true ∧ c.value = s := by
  induction g with
  | nil => simp at hs
  | cons c cs ih =>
    rw [activateFirstMatch_cons]
    by_cases heq : c.value = s
    · rw [if_pos heq]
      exact ⟨{ c with active := true }, List.mem_cons_self _ _, rfl, heq⟩
    · rw [if_neg heq]
      have hs2 : s ∈ cs.map Chip.value := by
        simp only [List.map_cons, List.mem_cons] at hs
        rcases hs with h1 | h2
        · exact absurd h1.symm heq
        · exact h2
      obtain ⟨x, hx, hact, hval⟩ := ih hs2
      exact ⟨x, List.mem_cons_of_mem _ hx, hact, hval⟩

theorem filter_id_replicate_false (n : Nat) :
    (List.replicate n false).filter id = [] := by
  induction n with
  | zero => rfl
  | succ n ih => simp [List.replicate_succ, List.filter_cons, ih]

theorem filter_id_replicate_set (n k : Nat) (hk : k < n) :
    (((List.replicate n false).set k true).filter id).length = 1 := by
  induction n generalizing k with
  | zero => omega
  | succ n ih =>
    cases k with
    | zero =>
      simp [List.replicate_succ, List.filter_cons, filter_id_replicate_false]
    | succ k =>
      rw [List.replicate_succ, List.set_cons_succ, List.filter_cons]
      simpa using ih k (by omega)

theorem countActive_eq_map (g : List Chip) :
    countActive g = ((g.map Chip.active).filter id).length := by
  induction g with
  | nil => rfl
  | cons c cs ih =>
    by_cases h : c.active
    · simp [countActive_cons, h, List.filter_cons, ih, Nat.add_comm]
    · simp [countActive_cons, h, List.filter_cons, ih]

/-! ## Lemmas: view router -/

theorem applyCall_const (s t : ViewState) (c : ViewCall) : applyCall s c = applyCall t c := by
  cases c <;> rfl

theorem runCalls_append_last (calls : List ViewCall) :
    ∀ (s : ViewState) (c : ViewCall), runCalls s (calls ++ [c]) = applyCall s c := by
  induction calls with
  | nil => intro s c; rfl
  | cons c1 rest ih =>
    intro s c
    show runCalls (applyCall s c1) (rest ++ [c]) = _
    rw [ih]
    exact applyCall_const _ _ _

/-! ## The claims -/

/-- Claim C2: for every configured chip group (built from the page's
chips, delivered without an active marker), at most one chip bears the
active marker after configuration and after any sequence of chip clicks;
and clicking the chip at position `k` of an arbitrary group leaves
exactly that chip active and every sibling inactive, whatever the prior
state: the active markers become the all-false list with position `k`
set, the values are unchanged, and exactly one chip is active. -/
theorem chipGroup_single_active :
    (∀ (values : List String) (dv : JSVal) (ks : List Nat),
        countActive (runClicks (setChipGroupSingle values dv) ks) ≤ 1)
    ∧ (∀ (g : List Chip) (k : Nat), k < g.length →
        (clickChip g k).map Chip.active = (List.replicate g.length false).set k true
        ∧ (clickChip g k).map Chip.value = g.map Chip.value
        ∧ countActive (clickChip g k) = 1) := by
  constructor
  · intro values dv ks
    exact countActive_runClicks _ _ (countActive_config values dv)
  · intro g k hk
    refine ⟨clickChip_map_active g k, clickChip_map_value g k, ?_⟩
    rw [countActive_eq_map, clickChip_map_active]
    exact filter_id_replicate_set _ _ hk

/-- Witness for C2 at concrete inputs: a two-chip group configured with
default `"male"` and clicked twice keeps at most one active chip, and a
click on position 1 of a group whose two chips are both (irregularly)
active leaves exactly position 1 active. -/
theorem chipGroup_single_active_witness :
    countActive (runClicks (setChipGroupSingle ["male", "female"] (JSVal.str "male")) [1, 0]) ≤ 1
    ∧ (clickChip [⟨"a", true⟩, ⟨"b", true⟩] 1).map Chip.active = [false, true] := by
  refine ⟨chipGroup_single_active.1 ["male", "female"] (JSVal.str "male") [1, 0], ?_⟩
  rw [(chipGroup_single_active.2 [⟨"a", true⟩, ⟨"b", true⟩] 1 (by decide)).1]
  decide

/-- Claim C10: a falsy `defaultValue` (empty string, `0`, `null`)
pre-activates nothing at configuration time, even when a chip with the
matching value exists; a truthy default activates only chips whose value
equals `String(defaultValue)`, and when such a chip exists one of them is
activated. -/
theorem chipDefault_truthiness :
    (∀ (values : List String) (dv : JSVal), dv.truthy = false →
        setChipGroupSingle values dv = freshChips values)
    ∧ (∀ (values : List String) (dv : JSVal), dv.truthy = true →
        (∀ c ∈ setChipGroupSingle values dv, c.active = true → c.value = dv.toStr)
        ∧ (dv.toStr ∈ values →
            ∃ c ∈ setChipGroupSingle values dv, c.active = true ∧ c.value = dv.toStr)) := by
  have hfresh : ∀ values : List String, ∀ c ∈ freshChips values, c.active = false := by
    intro values c hc
    obtain ⟨v, _, rfl⟩ := List.mem_map.mp hc
    rfl
  have hvals : ∀ values : List String, (freshChips values).map Chip.value = values := by
    intro values
    rw [freshChips, List.map_map]
    exact List.map_id _
  constructor
  · intro values dv h
    unfold setChipGroupSingle
    rw [if_neg (by simp [h])]
  · intro values dv h
    constructor
    · intro c hc hact
      unfold setChipGroupSingle at hc
      rw [if_pos h] at hc
      exact activateFirstMatch_only _ _ (hfresh values) c hc hact
    · intro hmem
      unfold setChipGroupSingle
      rw [if_pos h]
      exact activateFirstMatch_found _ _ (by rw [hvals]; exact hmem)

/-- Witness for C10 at concrete inputs: the empty-string default (falsy)
activates nothing although a chip with value `""` exists, and the truthy
default `"b"` activates a chip with value `"b"`. -/
theorem chipDefault_truthiness_witness :
    setChipGroupSingle ["x", ""] (JSVal.str "")
      = [{ value := "x", active := false }, { value := "", active := false }]
    ∧ ∃ c ∈ setChipGroupSingle ["a", "b"] (JSVal.str "b"),
        c.active = true ∧ c.value = (JSVal.str "b").toStr := by
  constructor
  · rw [chipDefault_truthiness.1 ["x", ""] (JSVal.str "") (by decide)]
    decide
  · exact (chipDefault_truthiness.2 ["a", "b"] (JSVal.str "b") (by decide)).2 (by decide)

/-- Claim C8: after any sequence of `showOnboarding()` / `showChat()`
calls ending in the call `c` (any non-empty sequence has this shape),
the resulting view state is the one `c` alone produces from any state —
an earlier call's effect never persists past a later call — and exactly
one of the two sections is unhidden. -/
theorem viewRouter_last_call_wins (s : ViewState) (calls : List ViewCall) (c : ViewCall) :
    runCalls s (calls ++ [c]) = applyCall s c
    ∧ (runCalls s (calls ++ [c])).onboardingHidden
        = !(runCalls s (calls ++ [c])).chatHidden := by
  refine ⟨runCalls_append_last calls s c, ?_⟩
  rw [runCalls_append_last calls s c]
  cases c <;> rfl

/-- Claim C9: `addMessage(role, text)` appends exactly one node to the
transcript: its wrapper class is `message <role>`, its avatar label is
`GB` when the role is `assistant` and `You` for any other role, its
bubble holds the text literally (stored as inert `textContent`, never
parsed as markup), and afterwards the container's scroll offset equals
its maximum `scrollHeight - clientHeight` for every content-height
function `H`.  The function is total: any role and any text succeed. -/
theorem addMessage_appends_and_scrolls (H : List MessageNode → Nat) (role text : String)
    (c : Container) :
    (addMessage H role text c).msgs
        = c.msgs ++ [{ className := "message " ++ role
                     , avatarText := if role = "assistant" then "GB" else "You"
                     , bubbleText := text }]
    ∧ (addMessage H role text c).msgs.length = c.msgs.length + 1
    ∧ (addMessage H role text c).scrollTop
        = H (addMessage H role text c).msgs - c.clientHeight := by
  refine ⟨rfl, by simp [addMessage], ?_⟩
  exact Nat.min_eq_right (Nat.sub_le _ _)

/-- Claim C5: at initialization (empty transcript), a profile response
with `ok` true and a present (truthy) profile switches to the chat view
and appends exactly one assistant welcome message whose text carries the
profile summary; otherwise (`ok` false, or no profile) the onboarding
view is shown and the transcript stays empty. -/
theorem initProfile_branches (p : ProfileResp) (st : AppState) (h0 : st.transcript = []) :
    (p.ok = true → p.profilePresent = true →
      (initProfile p st).view = { onboardingHidden := true, chatHidden := false }
      ∧ (initProfile p st).transcript
          = [mkMessage "assistant" ("Welcome back. Profile: " ++ p.profile_summary)])
    ∧ ((p.ok = false ∨ p.profilePresent = false) →
      (initProfile p st).view = { onboardingHidden := false, chatHidden := true }
      ∧ (initProfile p st).transcript = []) := by
  constructor
  · intro h1 h2
    constructor
    · simp [initProfile, h1, h2, applyCall]
    · simp [initProfile, h1, h2, h0]
  · intro h
    have hcond : (p.ok && p.profilePresent) = false := by
      rcases h with h | h <;> simp [h]
    constructor
    · simp [initProfile, hcond, applyCall]
    · simp [initProfile, hcond, h0]

/-- Witness for C5 at concrete inputs: a successful profile fetch with
summary `"5x"` from the initial state yields the chat view and exactly
the one welcome message; a failed fetch leaves onboarding visible and
the transcript empty. -/
theorem initProfile_branches_witness :
    (initProfile { ok := true, profilePresent := true, profile_summary := "5x" }
        { view := { onboardingHidden := false, chatHidden := true }, transcript := [] }).transcript
      = [mkMessage "assistant" ("Welcome back. Profile: " ++ "5x")]
    ∧ (initProfile { ok := false, profilePresent := false, profile_summary := "" }
        { view := { onboardingHidden := false, chatHidden := true }, transcript := [] }).view
      = { onboardingHidden := false, chatHidden := true } := by
  constructor
  · exact ((initProfile_branches
      { ok := true, profilePresent := true, profile_summary := "5x" }
      { view := { onboardingHidden := false, chatHidden := true }, transcript := [] }
      rfl).1 rfl rfl).2
  · exact ((initProfile_branches
      { ok := false, profilePresent := false, profile_summary := "" }
      { view := { onboardingHidden := false, chatHidden := true }, transcript := [] }
      rfl).2 (Or.inl rfl)).1

/-- Claim C6: in the onboarding start flow, a response with `ok` false
leaves the state untouched (the onboarding view stays as it was, the
chat view is not shown, nothing is appended) and alerts with the
server's error string, or with the generic fallback when the error field
is absent (or empty, which JavaScript `||` also treats as missing); a
response with `ok` true shows the chat view, appends exactly one
assistant message carrying the returned summary, and raises no alert. -/
theorem startFlow_branches (res : OnbResp) (st : AppState) :
    (res.ok = false →
      (startFlow res st).1 = st
      ∧ ((res.error = none ∨ res.error = some "") →
          (startFlow res st).2 = some "Please complete the required fields.")
      ∧ (∀ e, res.error = some e → e ≠ "" → (startFlow res st).2 = some e))
    ∧ (res.ok = true →
      (startFlow res st).1.view = { onboardingHidden := true, chatHidden := false }
      ∧ (startFlow res st).1.transcript
          = st.transcript ++ [mkMessage "assistant" ("Your profile: " ++ res.profile_summary)]
      ∧ (startFlow res st).2 = none) := by
  constructor
  · intro h
    refine ⟨by simp [startFlow, h], ?_, ?_⟩
    · intro herr
      rcases herr with he | he <;> simp [startFlow, h, he]
    · intro e he hne
      simp [startFlow, h, he, hne]
  · intro h
    refine ⟨?_, ?_, ?_⟩ <;> simp [startFlow, h, applyCall]

/-- Witness for C6 at concrete inputs: a failure response carrying
`"Age is required"` leaves the state unchanged and surfaces exactly that
text; a failure response with no error string surfaces the generic
fallback. -/
theorem startFlow_branches_witness :
    (startFlow { ok := false, error := some "Age is required", profile_summary := "" }
        { view := { onboardingHidden := false, chatHidden := true }, transcript := [] }).1
      = { view := { onboardingHidden := false, chatHidden := true }, transcript := [] }
    ∧ (startFlow { ok := false, error := some "Age is required", profile_summary := "" }
        { view := { onboardingHidden := false, chatHidden := true }, transcript := [] }).2
      = some "Age is required"
    ∧ (startFlow { ok := false, error := none, profile_summary := "" }
        { view := { onboardingHidden := false, chatHidden := true }, transcript := [] }).2
      = some "Please complete the required fields." := by
  refine ⟨?_, ?_, ?_⟩
  · exact ((startFlow_branches
      { ok := false, error := some "Age is required", profile_summary := "" }
      { view := { onboardingHidden := false, chatHidden := true }, transcript := [] }).1
      rfl).1
  · exact ((startFlow_branches
      { ok := false, error := some "Age is required", profile_summary := "" }
      { view := { onboardingHidden := false, chatHidden := true }, transcript := [] }).1
      rfl).2.2 "Age is required" rfl (by decide)
  · exact ((startFlow_branches
      { ok := false, error := none, profile_summary := "" }
      { view := { onboardingHidden := false, chatHidden := true }, transcript := [] }).1
      rfl).2.1 (Or.inl rfl)

/-- Claim C7: in the chat send flow, a whitespace-only input issues no
request and changes nothing; a non-empty trimmed input clears the input,
appends the user message with the trimmed text, issues exactly one
request with that text, appends one assistant message carrying the reply
on success, the server error (or the fallback `Error generating reply.`
for an absent or empty error string) on a server-reported failure, or
the fixed `Network error.` on a network-level failure, and re-enables
the send control in every outcome. -/
theorem send_flow_spec (st : SendState) (o : ChatOutcome) :
    (jsTrim st.inputValue = "" → sendStart st = st)
    ∧ (jsTrim st.inputValue ≠ "" →
        finishRequest o (sendStart st) =
          { inputValue := ""
          , sendDisabled := false
          , inFlight := st.inFlight
          , transcript := st.transcript
              ++ [mkMessage "user" (jsTrim st.inputValue), mkMessage "assistant" (replyText o)]
          , requests := st.requests ++ [jsTrim st.inputValue] })
    ∧ (∀ r, o = ChatOutcome.resp r → r.ok = true → replyText o = r.reply)
    ∧ (∀ r e, o = ChatOutcome.resp r → r.ok = false → r.error = some e → e ≠ "" →
        replyText o = e)
    ∧ (∀ r, o = ChatOutcome.resp r → r.ok = false → (r.error = none ∨ r.error = some "") →
        replyText o = "Error generating reply.")
    ∧ (o = ChatOutcome.netError → replyText o = "Network error.") := by
  refine ⟨?_, ?_, ?_, ?_, ?_, ?_⟩
  · intro h
    simp [sendStart, h]
  · intro h
    simp [sendStart, h, finishRequest]
  · intro r ho hok
    subst ho
    simp [replyText, hok]
  · intro r e ho hok he hne
    subst ho
    simp [replyText, hok, he, hne]
  · intro r ho hok he
    subst ho
    rcases he with he | he <;> simp [replyText, hok, he]
  · intro ho
    subst ho
    rfl

/-- Witness for C7 at concrete inputs: sending `"  hi  "` with a
successful reply `"yo"` ends with the input cleared, the user message
`hi` and the assistant reply appended, no net change to the in-flight
count, the request `hi` issued, and the send control re-enabled. -/
theorem send_flow_spec_witness :
    jsTrim "  hi  " ≠ ""
    ∧ finishRequest (ChatOutcome.resp { ok := true, reply := "yo", error := none })
        (sendStart { inputValue := "  hi  ", sendDisabled := false, inFlight := 0
                   , transcript := [], requests := [] })
      = { inputValue := ""
        , sendDisabled := false
        , inFlight := 0
        , transcript := [mkMessage "user" (jsTrim "  hi  ")
            , mkMessage "assistant"
                (replyText (ChatOutcome.resp { ok := true, reply := "yo", error := none }))]
        , requests := [jsTrim "  hi  "] } := by
  refine ⟨by decide, ?_⟩
  exact (send_flow_spec
    { inputValue := "  hi  ", sendDisabled := false, inFlight := 0
    , transcript := [], requests := [] }
    (ChatOutcome.resp { ok := true, reply := "yo", error := none })).2.1 (by decide)

/-- Claim C4 (amended): the send control's disabled state guards only the
send-button click trigger — a click while the button is disabled runs
nothing (a disabled button fires no click event), and immediately after a
request is issued the input is empty, so a bare Enter with no further
typing issues nothing.  The Enter-key handler, however, calls `send()`
without consulting the disabled state, so it is not a guard for that
trigger (see the counterexample, where a second request is issued while
one is in flight). -/
theorem send_guard_amended :
    (∀ st : SendState, st.sendDisabled = true → stepEvent st UiEvent.clickSend = st)
    ∧ (∀ st : SendState, jsTrim st.inputValue = "" → stepEvent st UiEvent.pressEnter = st)
    ∧ (∀ st : SendState, jsTrim st.inputValue ≠ "" → (sendStart st).inputValue = "") := by
  refine ⟨?_, ?_, ?_⟩
  · intro st h
    simp [stepEvent, h]
  · intro st h
    simp [stepEvent, sendStart, h]
  · intro st h
    simp [sendStart, h]

/-- Witness for the amended C4 at concrete inputs: with the send button
disabled and a non-empty input, a click changes nothing, and with an
empty input Enter changes nothing. -/
theorem send_guard_amended_witness :
    stepEvent { inputValue := "x", sendDisabled := true, inFlight := 1
              , transcript := [], requests := [] } UiEvent.clickSend
      = { inputValue := "x", sendDisabled := true, inFlight := 1
        , transcript := [], requests := [] }
    ∧ stepEvent { inputValue := "", sendDisabled := true, inFlight := 1
                , transcript := [], requests := [] } UiEvent.pressEnter
      = { inputValue := "", sendDisabled := true, inFlight := 1
        , transcript := [], requests := [] } := by
  exact ⟨send_guard_amended.1 _ rfl, send_guard_amended.2.1 _ (by decide)⟩

/-- Counterexample to C4 as stated: the disabled state is not a
sufficient guard for every user trigger.  Starting from the idle state,
the user types `a` and presses Enter (one request in flight, send button
disabled), then types `b` and presses Enter again: the Enter-key handler
runs `send()` although the button is disabled, and a second request is
issued — two chat requests are concurrently in flight. -/
theorem send_guard_counterexample :
    (runEvents { inputValue := "", sendDisabled := false, inFlight := 0
               , transcript := [], requests := [] }
        [UiEvent.setInput "a", UiEvent.pressEnter, UiEvent.setInput "b"]).sendDisabled = true
    ∧ (runEvents { inputValue := "", sendDisabled := false, inFlight := 0
                 , transcript := [], requests := [] }
        [UiEvent.setInput "a", UiEvent.pressEnter, UiEvent.setInput "b",
         UiEvent.pressEnter]).inFlight = 2 := by
  constructor <;> rfl

/-- Claim C1 (amended): the stepper click handler is a total function —
it never throws.  The step multiplier falls back to `0` exactly when the
button's `data-step` attribute is absent or empty, and the input's
`min`, `max`, `step` and value fall back to `-9999`, `9999`, `1` and `0`
exactly when the corresponding attribute string is empty; when every
attribute parses the handler writes the clamped `value + delta * step`.
A non-empty attribute that does not parse as a base-10 integer is not
defaulted, and its effect depends on where it enters the computation: a
non-numeric value, `data-step` multiplier, or `step` attribute makes the
arithmetic NaN and the handler writes the literal string `NaN`; a
non-numeric `min` (resp. `max`) attribute, the remaining attributes
numeric, merely disables the lower (resp. upper) clamp bound — the
comparison against NaN is false — so the numeric result is written,
unclamped on that side; with both `min` and `max` non-numeric the raw
`value + delta * step` is written.  In every case the handler
completes. -/
theorem stepper_defaults_amended (b : Option String) (i : InputState) :
    (∀ d v mn mx st : Int,
        parseIntTen (dataOr b "0") = some d →
        parseIntTen (attrOr i.value "0") = some v →
        parseIntTen (attrOr i.min "-9999") = some mn →
        parseIntTen (attrOr i.max "9999") = some mx →
        parseIntTen (attrOr i.step "1") = some st →
        (stepperClick b i).value = intToString (jsClamp (v + d * st) mn mx))
    ∧ (b = none → parseIntTen (dataOr b "0") = some 0)
    ∧ (i.value = "" → parseIntTen (attrOr i.value "0") = some 0)
    ∧ (i.min = "" → parseIntTen (attrOr i.min "-9999") = some (-9999))
    ∧ (i.max = "" → parseIntTen (attrOr i.max "9999") = some 9999)
    ∧ (i.step = "" → parseIntTen (attrOr i.step "1") = some 1)
    ∧ (parseIntTen (attrOr i.value "0") = none → (stepperClick b i).value = "NaN")
    ∧ (parseIntTen (dataOr b "0") = none → (stepperClick b i).value = "NaN")
    ∧ (parseIntTen (attrOr i.step "1") = none → (stepperClick b i).value = "NaN")
    ∧ (∀ d v st mx : Int,
        parseIntTen (dataOr b "0") = some d →
        parseIntTen (attrOr i.value "0") = some v →
        parseIntTen (attrOr i.step "1") = some st →
        parseIntTen (attrOr i.min "-9999") = none →
        parseIntTen (attrOr i.max "9999") = some mx →
        (stepperClick b i).value
          = intToString (if mx < v + d * st then mx else v + d * st))
    ∧ (∀ d v st mn : Int,
        parseIntTen (dataOr b "0") = some d →
        parseIntTen (attrOr i.value "0") = some v →
        parseIntTen (attrOr i.step "1") = some st →
        parseIntTen (attrOr i.min "-9999") = some mn →
        parseIntTen (attrOr i.max "9999") = none →
        (stepperClick b i).value
          = intToString (if v + d * st < mn then mn else v + d * st))
    ∧ (∀ d v st : Int,
        parseIntTen (dataOr b "0") = some d →
        parseIntTen (attrOr i.value "0") = some v →
        parseIntTen (attrOr i.step "1") = some st →
        parseIntTen (attrOr i.min "-9999") = none →
        parseIntTen (attrOr i.max "9999") = none →
        (stepperClick b i).value = intToString (v + d * st)) := by
  refine ⟨?_, ?_, ?_, ?_, ?_, ?_, ?_, ?_, ?_, ?_, ?_, ?_⟩
  · intro d v mn mx st hd hv hmn hmx hst
    rw [stepperClick_value b i d v mn mx st hd hv hmn hmx hst]
  · intro h
    subst h
    decide
  · intro h
    rw [attrOr, if_pos h]
    decide
  · intro h
    rw [attrOr, if_pos h]
    decide
  · intro h
    rw [attrOr, if_pos h]
    decide
  · intro h
    rw [attrOr, if_pos h]
    decide
  · intro h
    unfold stepperClick
    rw [h]
    simp [nanAdd, nanLt, nanGt, jsNumToString]
  · intro h
    unfold stepperClick
    rw [h]
    simp [nanAdd, nanMul, nanLt, nanGt, jsNumToString]
  · intro h
    unfold stepperClick
    rw [h]
    simp [nanMul_none_right, nanAdd_none_right, nanLt_none_left, nanGt_none_left,
      jsNumToString]
  · intro d v st mx hd hv hst hmn hmx
    unfold stepperClick
    rw [hd, hv, hst, hmn, hmx]
    simp [nanAdd, nanMul, nanLt_some_none, nanGt, jsNumToString]
    split_ifs <;> simp_all
  · intro d v st mn hd hv hst hmn hmx
    unfold stepperClick
    rw [hd, hv, hst, hmn, hmx]
    simp [nanAdd, nanMul, nanGt_some_none, nanLt, jsNumToString]
    split_ifs <;> simp_all [nanGt_some_none]
  · intro d v st hd hv hst hmn hmx
    unfold stepperClick
    rw [hd, hv, hst, hmn, hmx]
    simp [nanAdd, nanMul, nanLt_some_none, nanGt_some_none, jsNumToString]

/-- Witness for the amended C1 at concrete inputs: a `data-step` of `2`
on an input with value `5`, range `[0, 10]` and step `3` writes back the
clamped `5 + 2 * 3 = 11 -> 10`; the defaults apply on empty attributes;
a non-numeric `step` attribute makes the handler write `NaN`; and a
non-numeric `min` attribute on an otherwise numeric input (value `5`,
multiplier `1`, step and max absent) skips the lower clamp and writes
`6`, not `NaN`. -/
theorem stepper_defaults_amended_witness :
    (stepperClick (some "2") { value := "5", min := "0", max := "10", step := "3" }).value
      = intToString (jsClamp (5 + 2 * 3) 0 10)
    ∧ parseIntTen (attrOr "" "-9999") = some (-9999)
    ∧ (stepperClick (some "1") { value := "5", min := "", max := "", step := "xy" }).value
      = "NaN"
    ∧ (stepperClick (some "1") { value := "5", min := "abc", max := "", step := "" }).value
      = "6" := by
  refine ⟨?_, ?_, ?_, ?_⟩
  · exact (stepper_defaults_amended (some "2")
      { value := "5", min := "0", max := "10", step := "3" }).1 2 5 0 10 3
      (by decide) (by decide) (by decide) (by decide) (by decide)
  · exact (stepper_defaults_amended none
      { value := "", min := "", max := "", step := "" }).2.2.2.1 rfl
  · exact (stepper_defaults_amended (some "1")
      { value := "5", min := "", max := "", step := "xy" }).2.2.2.2.2.2.2.2.1 (by decide)
  · have h := (stepper_defaults_amended (some "1")
      { value := "5", min := "abc", max := "", step := "" }).2.2.2.2.2.2.2.2.2.1
      1 5 1 9999 (by decide) (by decide) (by decide) (by decide) (by decide)
    rw [h]
    decide

/-- Counterexample to C1 as stated: a non-numeric attribute is not
silently defaulted.  With a button multiplier of `1` and an input whose
value attribute is the non-numeric `abc` (range and step absent), the
claim predicts the value defaults to `0` and the displayed result is the
clamped `0 + 1 * 1 = 1`; the handler instead parses `abc` to NaN, which
propagates, and writes the non-numeric string `NaN`. -/
theorem stepper_defaults_counterexample :
    (stepperClick (some "1") { value := "abc", min := "", max := "", step := "" }).value = "NaN"
    ∧ (stepperClick (some "1") { value := "abc", min := "", max := "", step := "" }).value
        ≠ intToString (jsClamp (0 + 1 * 1) (-9999) 9999) := by
  constructor <;> decide

/-- Claim C3: for every stepper input whose `min`, `max` and `step`
attributes parse (directly or through their defaults) to integers with
`min ≤ max`, every starting value that parses to an integer, and every
non-empty sequence of clicks on buttons whose multipliers parse, the
displayed value after the sequence is an integer `w` with
`min ≤ w ≤ max`; since this holds for every such sequence, it holds
after each intermediate click as well. -/
theorem stepper_always_clamped (i : InputState) (mn mx st v : Int)
    (bs : List (Option String))
    (hmn : parseIntTen (attrOr i.min "-9999") = some mn)
    (hmx : parseIntTen (attrOr i.max "9999") = some mx)
    (hst : parseIntTen (attrOr i.step "1") = some st)
    (hv : parseIntTen (attrOr i.value "0") = some v)
    (hle : mn ≤ mx)
    (hbs : ∀ b ∈ bs, (parseIntTen (dataOr b "0")).isSome)
    (hne : bs ≠ []) :
    ∃ w : Int, parseIntTen ((clickSeq i bs).value) = some w ∧ mn ≤ w ∧ w ≤ mx := by
  obtain ⟨w, _, himp⟩ := clickSeq_spec mn mx st bs i v hmn hmx hst hv hle hbs
  obtain ⟨hval, h1, h2⟩ := himp hne
  exact ⟨w, by rw [hval, parseIntTen_intToString], h1, h2⟩

/-- Witness for C3 at concrete inputs: two increment clicks (multiplier
`1`) on an input with value `5`, range `[0, 10]`, step `3` land on a
value in `[0, 10]` (namely `5 -> 8 -> 10` after clamping). -/
theorem stepper_always_clamped_witness :
    ∃ w : Int,
      parseIntTen ((clickSeq { value := "5", min := "0", max := "10", step := "3" }
        [some "1", some "1"]).value) = some w ∧ 0 ≤ w ∧ w ≤ 10 :=
  stepper_always_clamped { value := "5", min := "0", max := "10", step := "3" } 0 10 3 5
    [some "1", some "1"] (by decide) (by decide) (by decide) (by decide) (by decide)
    (by decide) (by decide)
